import Mathlib

set_option linter.unusedVariables false

/-!
Shallow embedding of the playback-control core of `src/src/main.cpp`
(ESP32 SD-card MP3 player streaming over A2DP).

The mutable globals of the source (`playlist`, `currentTrackIndex`,
`isPlaying`) together with the backend pause flag observable through
`player.isPaused()` form the state type `PlayerState`.  External
collaborators are modelled as explicit inputs: `connected` is the value
`a2dp_source.is_connected()` would return, `loadOk` the value
`player.isOk()` reports after a `player.begin(...)` attempt, `copyResult`
the value `player.copy()` returns, and `healthy` the value `player.isOk()`
would report if the loop consulted it.  Backend calls made by the core
(`player.begin`, `player.stop`, `player.pause`) are recorded as a command
trace.  `currentTrackIndex` is a C `int`, modelled as `Int`.  Reading
`playlist[i]` out of bounds is undefined behaviour on `std::vector`; a
step performing such a read is modelled as `none`.
-/

/-- A backend command issued by the control core: `load t` stands for
`player.begin(SD.open(t))`, `stop` for `player.stop()`, and
`setPaused b` for `player.pause(b)`. -/
inductive Cmd where
  | load (track : String)
  | stop
  | setPaused (b : Bool)
  deriving DecidableEq

/-- The mutable state of the control core: the globals `playlist`,
`currentTrackIndex` and `isPlaying` of `main.cpp`, plus the backend pause
flag that the source observes through `player.isPaused()`. -/
structure PlayerState where
  playlist : List String
  currentTrackIndex : Int
  isPlaying : Bool
  paused : Bool
  deriving DecidableEq

/-- Reading `v[i]` on a `std::vector` with an `int` index: defined (and
equal to the element) exactly when `0 ≤ i < v.size()`, undefined
behaviour otherwise (`none`). -/
def vecGet (l : List String) (i : Int) : Option String :=
  if 0 ≤ i then l[i.toNat]? else none

/-- Embeds `playFile` (main.cpp lines 172-184): if `isPlaying` then
`player.stop()`; then `player.begin(SD.open(filename))`; if
`player.isOk()` then `isPlaying = true` else `isPlaying = false`.
`loadOk` is the `player.isOk()` outcome of this load attempt; a fresh
`begin` leaves the backend unpaused. -/
def playFile (loadOk : Bool) (filename : String) (s : PlayerState) : PlayerState × List Cmd :=
  let stopCmds := if s.isPlaying then [Cmd.stop] else []
  let cmds := stopCmds ++ [Cmd.load filename]
  if loadOk then
    ({ s with isPlaying := true, paused := false }, cmds)
  else
    ({ s with isPlaying := false, paused := false }, cmds)

/-- Embeds `playNextTrack` (main.cpp lines 187-200): early return when the
playlist is empty or the sink is not connected; when not playing, play the
file at the current index; otherwise increment `currentTrackIndex`,
wrapping to 0 when it reaches `playlist.size()`, and play that file. -/
def playNextTrack (connected loadOk : Bool) (s : PlayerState) :
    Option (PlayerState × List Cmd) :=
  if s.playlist.isEmpty || !connected then
    some (s, [])
  else if !s.isPlaying then
    match vecGet s.playlist s.currentTrackIndex with
    | some t => some (playFile loadOk t s)
    | none => none
  else
    let i1 := s.currentTrackIndex + 1
    let i2 := if i1 ≥ (s.playlist.length : Int) then 0 else i1
    let s1 := { s with currentTrackIndex := i2 }
    match vecGet s1.playlist s1.currentTrackIndex with
    | some t => some (playFile loadOk t s1)
    | none => none

/-- Embeds `playPrevTrack` (main.cpp lines 203-211): early return when the
playlist is empty, not playing, or the sink is not connected; otherwise
decrement `currentTrackIndex`, wrapping to `playlist.size() - 1` when it
goes below 0, and play that file. -/
def playPrevTrack (connected loadOk : Bool) (s : PlayerState) :
    Option (PlayerState × List Cmd) :=
  if s.playlist.isEmpty || !s.isPlaying || !connected then
    some (s, [])
  else
    let i1 := s.currentTrackIndex - 1
    let i2 := if i1 < 0 then (s.playlist.length : Int) - 1 else i1
    let s1 := { s with currentTrackIndex := i2 }
    match vecGet s1.playlist s1.currentTrackIndex with
    | some t => some (playFile loadOk t s1)
    | none => none

/-- Embeds `stopPlayback` (main.cpp lines 214-220): if `isPlaying` then
`player.stop()` and `isPlaying = false`, else nothing. -/
def stopPlayback (s : PlayerState) : PlayerState × List Cmd :=
  if s.isPlaying then
    ({ s with isPlaying := false }, [Cmd.stop])
  else
    (s, [])

/-- Embeds `pausePlayback` (main.cpp lines 223-227): if `isPlaying` then
`player.pause(!player.isPaused())`, else nothing. -/
def pausePlayback (s : PlayerState) : PlayerState × List Cmd :=
  if s.isPlaying then
    ({ s with paused := !s.paused }, [Cmd.setPaused (!s.paused)])
  else
    (s, [])

/-- Embeds the `ESP_AVRC_PLAYBACK_PLAYING` branch of `avrcp_callback`
(main.cpp lines 70-78): if not `isPlaying` then
`playFile(playlist[currentTrackIndex].c_str())` — with no empty-catalog
and no `is_connected()` check — else `player.pause(false)`. -/
def avrcpPlay (loadOk : Bool) (s : PlayerState) : Option (PlayerState × List Cmd) :=
  if !s.isPlaying then
    match vecGet s.playlist s.currentTrackIndex with
    | some t => some (playFile loadOk t s)
    | none => none
  else
    some ({ s with paused := false }, [Cmd.setPaused false])

/-- The abstract navigation-event vocabulary of the spec.  In the source,
`playOrResume` arrives only through the AVRCP callback
(`ESP_AVRC_PLAYBACK_PLAYING`); `next`, `prev`, `stop` arrive from either
buttons or the callback, and `pauseToggle` from the callback
(`ESP_AVRC_PLAYBACK_PAUSED`). -/
inductive NavEvent where
  | playOrResume
  | pauseToggle
  | next
  | prev
  | stop
  deriving DecidableEq

/-- Dispatch of one navigation event to the handler the source wires it to
(`avrcp_callback` cases and the `OneButton` attachments in `setup`). -/
def applyEvent (connected loadOk : Bool) (e : NavEvent) (s : PlayerState) :
    Option (PlayerState × List Cmd) :=
  match e with
  | NavEvent.playOrResume => avrcpPlay loadOk s
  | NavEvent.pauseToggle => some (pausePlayback s)
  | NavEvent.next => playNextTrack connected loadOk s
  | NavEvent.prev => playPrevTrack connected loadOk s
  | NavEvent.stop => some (stopPlayback s)

/-- Embeds the body of `loop` (main.cpp lines 155-165) after the button
ticks: if `isPlaying && player.isPaused() == false` and `player.copy()`
returns false, call `playNextTrack()`.  `healthy` is the value
`player.isOk()` would return this iteration; the source loop never reads
it, so it does not influence the result. -/
def loopTick (connected loadOk copyResult healthy : Bool) (s : PlayerState) :
    Option (PlayerState × List Cmd) :=
  if s.isPlaying && !s.paused then
    if !copyResult then
      playNextTrack connected loadOk s
    else
      some (s, [])
  else
    some (s, [])

/-- Iterates an event-step function `k` times, threading the state and
discarding command traces; `none` propagates (undefined behaviour). -/
def iterStep (f : PlayerState → Option (PlayerState × List Cmd)) :
    Nat → PlayerState → Option PlayerState
  | 0, s => some s
  | k + 1, s =>
    match f s with
    | some (s1, _) => iterStep f k s1
    | none => none

/-- A directory entry as the storage collaborator reports it: a name and
the `isDirectory()` discriminator. -/
structure DirEntry where
  name : String
  isDirectory : Bool
  deriving DecidableEq

/-- Embeds Arduino `String::endsWith` as used by `buildPlaylist`: true iff
`suffix` is a suffix of `name`, compared exactly (case-sensitively). -/
def endsWithStr (name suffix : String) : Bool :=
  List.isSuffixOf suffix.data name.data

/-- Embeds the filter loop of `buildPlaylist` (main.cpp lines 102-117):
keep, in enumeration order, every non-directory entry whose name
`endsWith(".mp3")` or `endsWith(".MP3")`; nothing is recursed into. -/
def buildPlaylist (entries : List DirEntry) : List String :=
  (entries.filter fun f =>
    !f.isDirectory && (endsWithStr f.name ".mp3" || endsWithStr f.name ".MP3")).map DirEntry.name

/-- Spec-side predicate, following the spec's words: the extension matches
the configured set compared case-insensitively. -/
def specCaseInsensitiveMp3 (name : String) : Bool :=
  List.isSuffixOf ".mp3".data (name.data.map Char.toLower)

/-! Helper lemmas shared by the claim theorems. -/

/-- An in-range vector read is defined. -/
theorem vecGet_eq_some (l : List String) (i : Int) (h0 : 0 ≤ i)
    (hlt : i < (l.length : Int)) : ∃ t, vecGet l i = some t := by
  have hn : i.toNat < l.length := by omega
  refine ⟨l[i.toNat], ?_⟩
  simp [vecGet, h0, List.getElem?_eq_getElem hn]

/-- A non-empty list is not `isEmpty`. -/
theorem isEmpty_false_of_ne_nil {l : List String} (h : l ≠ []) : l.isEmpty = false := by
  cases l with
  | nil => exact absurd rfl h
  | cons a t => rfl

/-- The wrap-forward computation of `playNextTrack` equals addition modulo
the playlist length on in-range indices. -/
theorem wrapNext_eq_emod (len c : Int) (hlen : 0 < len) (h0 : 0 ≤ c) (hlt : c < len) :
    (if c + 1 ≥ len then (0 : Int) else c + 1) = (c + 1) % len := by
  by_cases hcase : c + 1 ≥ len
  · have heq : c + 1 = len := by omega
    rw [if_pos hcase, heq, Int.emod_self]
  · push_neg at hcase
    rw [if_neg (by omega), Int.emod_eq_of_lt (by omega) hcase]

/-- The wrap-backward computation of `playPrevTrack` equals subtraction
modulo the playlist length on in-range indices. -/
theorem wrapPrev_eq_emod (len c : Int) (hlen : 0 < len) (h0 : 0 ≤ c) (hlt : c < len) :
    (if c - 1 < 0 then len - 1 else c - 1) = (c - 1) % len := by
  by_cases hcase : c - 1 < 0
  · have heq : c = 0 := by omega
    subst heq
    have h1 : ((-1 : Int) + len * 1) % len = (-1 : Int) % len :=
      Int.add_mul_emod_self_left (-1) len 1
    have h2 : ((-1 : Int) + len * 1) = len - 1 := by ring
    rw [h2] at h1
    have h3 : (len - 1) % len = len - 1 := Int.emod_eq_of_lt (by omega) (by omega)
    rw [h3] at h1
    have h4 : (0 : Int) - 1 = -1 := by norm_num
    rw [if_pos hcase, h4, ← h1]
  · push_neg at hcase
    rw [if_neg (by omega), Int.emod_eq_of_lt (by omega) (by omega)]

/-- One `playNextTrack` from an active (`isPlaying`) state with the sink
connected: the cursor advances by one modulo the playlist length, the
backend is stopped and the new track loaded, and the resulting `isPlaying`
is the load outcome. -/
theorem playNextTrack_active (loadOk : Bool) (s : PlayerState)
    (hne : s.playlist ≠ []) (hplay : s.isPlaying = true)
    (h0 : 0 ≤ s.currentTrackIndex)
    (hlt : s.currentTrackIndex < (s.playlist.length : Int)) :
    ∃ t, vecGet s.playlist ((s.currentTrackIndex + 1) % (s.playlist.length : Int)) = some t ∧
      playNextTrack true loadOk s =
        some (⟨s.playlist, (s.currentTrackIndex + 1) % (s.playlist.length : Int), loadOk, false⟩,
          [Cmd.stop, Cmd.load t]) := by
  obtain ⟨pl, c, ip, pz⟩ := s
  simp only at hplay h0 hlt
  subst hplay
  have hlen : (0 : Int) < (pl.length : Int) := by
    have := List.length_pos.mpr hne
    omega
  obtain ⟨t, ht⟩ := vecGet_eq_some pl _ (Int.emod_nonneg _ (by omega)) (Int.emod_lt_of_pos _ hlen)
  refine ⟨t, ht, ?_⟩
  have hie := isEmpty_false_of_ne_nil hne
  have hi2 := wrapNext_eq_emod (pl.length : Int) c hlen h0 hlt
  cases loadOk with
  | true => simp [playNextTrack, playFile, hie, hi2, ht]
  | false => simp [playNextTrack, playFile, hie, hi2, ht]

/-- One `playNextTrack` from a stopped state with the sink connected: the
cursor does not move and the file at the current cursor is loaded. -/
theorem playNextTrack_stopped (loadOk : Bool) (s : PlayerState)
    (hne : s.playlist ≠ []) (hplay : s.isPlaying = false)
    (h0 : 0 ≤ s.currentTrackIndex)
    (hlt : s.currentTrackIndex < (s.playlist.length : Int)) :
    ∃ t, vecGet s.playlist s.currentTrackIndex = some t ∧
      playNextTrack true loadOk s =
        some (⟨s.playlist, s.currentTrackIndex, loadOk, false⟩, [Cmd.load t]) := by
  obtain ⟨pl, c, ip, pz⟩ := s
  simp only at hplay h0 hlt
  subst hplay
  obtain ⟨t, ht⟩ := vecGet_eq_some pl c h0 hlt
  refine ⟨t, ht, ?_⟩
  have hie := isEmpty_false_of_ne_nil hne
  cases loadOk with
  | true => simp [playNextTrack, playFile, hie, ht]
  | false => simp [playNextTrack, playFile, hie, ht]

/-- One `playPrevTrack` from an active state with the sink connected: the
cursor moves back by one modulo the playlist length, the backend is
stopped and the new track loaded. -/
theorem playPrevTrack_active (loadOk : Bool) (s : PlayerState)
    (hne : s.playlist ≠ []) (hplay : s.isPlaying = true)
    (h0 : 0 ≤ s.currentTrackIndex)
    (hlt : s.currentTrackIndex < (s.playlist.length : Int)) :
    ∃ t, vecGet s.playlist ((s.currentTrackIndex - 1) % (s.playlist.length : Int)) = some t ∧
      playPrevTrack true loadOk s =
        some (⟨s.playlist, (s.currentTrackIndex - 1) % (s.playlist.length : Int), loadOk, false⟩,
          [Cmd.stop, Cmd.load t]) := by
  obtain ⟨pl, c, ip, pz⟩ := s
  simp only at hplay h0 hlt
  subst hplay
  have hlen : (0 : Int) < (pl.length : Int) := by
    have := List.length_pos.mpr hne
    omega
  obtain ⟨t, ht⟩ := vecGet_eq_some pl _ (Int.emod_nonneg _ (by omega)) (Int.emod_lt_of_pos _ hlen)
  refine ⟨t, ht, ?_⟩
  have hie := isEmpty_false_of_ne_nil hne
  have hi2 : (if c < 1 then (pl.length : Int) - 1 else c - 1) = (c - 1) % (pl.length : Int) := by
    have h := wrapPrev_eq_emod (pl.length : Int) c hlen h0 hlt
    simpa using h
  cases loadOk with
  | true => simp [playPrevTrack, playFile, hie, hi2, ht]
  | false => simp [playPrevTrack, playFile, hie, hi2, ht]

/-- The AVRCP PLAY branch from a stopped state: the file at the current
cursor is loaded with no connection or emptiness guard consulted. -/
theorem avrcpPlay_stopped (loadOk : Bool) (s : PlayerState)
    (hplay : s.isPlaying = false) (h0 : 0 ≤ s.currentTrackIndex)
    (hlt : s.currentTrackIndex < (s.playlist.length : Int)) :
    ∃ t, vecGet s.playlist s.currentTrackIndex = some t ∧
      avrcpPlay loadOk s =
        some (⟨s.playlist, s.currentTrackIndex, loadOk, false⟩, [Cmd.load t]) := by
  obtain ⟨pl, c, ip, pz⟩ := s
  simp only at hplay h0 hlt
  subst hplay
  obtain ⟨t, ht⟩ := vecGet_eq_some pl c h0 hlt
  refine ⟨t, ht, ?_⟩
  cases loadOk with
  | true => simp [avrcpPlay, playFile, ht]
  | false => simp [avrcpPlay, playFile, ht]

/-- `playNextTrack` is defined on every in-range state over a non-empty
playlist, never changes the playlist, and keeps the cursor in range. -/
theorem playNextTrack_range (connected loadOk : Bool) (s : PlayerState)
    (hne : s.playlist ≠ []) (h0 : 0 ≤ s.currentTrackIndex)
    (hlt : s.currentTrackIndex < (s.playlist.length : Int)) :
    ∃ s1 cmds, playNextTrack connected loadOk s = some (s1, cmds) ∧
      s1.playlist = s.playlist ∧ 0 ≤ s1.currentTrackIndex ∧
      s1.currentTrackIndex < (s.playlist.length : Int) := by
  have hlen : (0 : Int) < (s.playlist.length : Int) := by
    have := List.length_pos.mpr hne
    omega
  cases connected with
  | false =>
    refine ⟨s, [], ?_, rfl, h0, hlt⟩
    simp [playNextTrack]
  | true =>
    cases hp : s.isPlaying with
    | true =>
      obtain ⟨t, ht, hstep⟩ := playNextTrack_active loadOk s hne hp h0 hlt
      exact ⟨_, _, hstep, rfl, Int.emod_nonneg _ (by omega), Int.emod_lt_of_pos _ hlen⟩
    | false =>
      obtain ⟨t, ht, hstep⟩ := playNextTrack_stopped loadOk s hne hp h0 hlt
      exact ⟨_, _, hstep, rfl, h0, hlt⟩

/-- `playPrevTrack` is defined on every in-range state over a non-empty
playlist, never changes the playlist, and keeps the cursor in range. -/
theorem playPrevTrack_range (connected loadOk : Bool) (s : PlayerState)
    (hne : s.playlist ≠ []) (h0 : 0 ≤ s.currentTrackIndex)
    (hlt : s.currentTrackIndex < (s.playlist.length : Int)) :
    ∃ s1 cmds, playPrevTrack connected loadOk s = some (s1, cmds) ∧
      s1.playlist = s.playlist ∧ 0 ≤ s1.currentTrackIndex ∧
      s1.currentTrackIndex < (s.playlist.length : Int) := by
  have hlen : (0 : Int) < (s.playlist.length : Int) := by
    have := List.length_pos.mpr hne
    omega
  cases connected with
  | false =>
    refine ⟨s, [], ?_, rfl, h0, hlt⟩
    simp [playPrevTrack]
  | true =>
    cases hp : s.isPlaying with
    | false =>
      refine ⟨s, [], ?_, rfl, h0, hlt⟩
      simp [playPrevTrack, hp]
    | true =>
      obtain ⟨t, ht, hstep⟩ := playPrevTrack_active loadOk s hne hp h0 hlt
      exact ⟨_, _, hstep, rfl, Int.emod_nonneg _ (by omega), Int.emod_lt_of_pos _ hlen⟩

/-- Iterating `playNextTrack` (connected, loads succeeding) `k` times from
an active in-range state adds `k` to the cursor modulo the playlist
length, keeps the playlist, and stays playing. -/
theorem iterStep_next_mod (k : Nat) :
    ∀ s : PlayerState, s.playlist ≠ [] → s.isPlaying = true →
      0 ≤ s.currentTrackIndex → s.currentTrackIndex < (s.playlist.length : Int) →
      ∃ p : Bool, iterStep (playNextTrack true true) k s =
        some ⟨s.playlist, (s.currentTrackIndex + (k : Int)) % (s.playlist.length : Int), true, p⟩ := by
  induction k with
  | zero =>
    intro s hne hplay h0 hlt
    refine ⟨s.paused, ?_⟩
    have hmod : (s.currentTrackIndex + ((0 : Nat) : Int)) % (s.playlist.length : Int)
        = s.currentTrackIndex := by
      have hc : ((0 : Nat) : Int) = 0 := rfl
      rw [hc, Int.add_zero, Int.emod_eq_of_lt h0 hlt]
    rw [hmod]
    obtain ⟨pl, c, ip, pz⟩ := s
    simp only at hplay
    subst hplay
    simp [iterStep]
  | succ k ih =>
    intro s hne hplay h0 hlt
    have hlen : (0 : Int) < (s.playlist.length : Int) := by
      have := List.length_pos.mpr hne
      omega
    obtain ⟨t, ht, hstep⟩ := playNextTrack_active true s hne hplay h0 hlt
    obtain ⟨p, hiter⟩ := ih
      ⟨s.playlist, (s.currentTrackIndex + 1) % (s.playlist.length : Int), true, false⟩
      hne rfl (Int.emod_nonneg _ (by omega)) (Int.emod_lt_of_pos _ hlen)
    refine ⟨p, ?_⟩
    have hkstep : iterStep (playNextTrack true true) (k + 1) s
        = iterStep (playNextTrack true true) k
          ⟨s.playlist, (s.currentTrackIndex + 1) % (s.playlist.length : Int), true, false⟩ := by
      simp [iterStep, hstep]
    rw [hkstep, hiter]
    have harith : (((s.currentTrackIndex + 1) % (s.playlist.length : Int)) + (k : Int))
          % (s.playlist.length : Int)
        = (s.currentTrackIndex + ((k + 1 : Nat) : Int)) % (s.playlist.length : Int) := by
      rw [Int.emod_add_emod]
      congr 1
      push_cast
      ring
    rw [harith]

/-! Claim theorems. -/

/-- C1: the spec says every navigation event arriving with an empty
catalog is silently absorbed — state and cursor unchanged, no backend
command.  The code satisfies this for Next, Prev, PauseToggle and Stop
from the stopped state, but the remote PlayOrResume path reads
`playlist[currentTrackIndex]` with no emptiness guard: on an empty catalog
this is an out-of-bounds `std::vector` access (undefined behaviour,
modelled as `none`) on the way to a load attempt, not a silent no-op. -/
theorem emptyCatalog_remotePlay_bug :
    avrcpPlay true ⟨[], 0, false, false⟩ = none ∧
    avrcpPlay false ⟨[], 0, false, false⟩ = none ∧
    (∀ connected loadOk : Bool,
      playNextTrack connected loadOk ⟨[], 0, false, false⟩ =
        some (⟨[], 0, false, false⟩, []) ∧
      playPrevTrack connected loadOk ⟨[], 0, false, false⟩ =
        some (⟨[], 0, false, false⟩, [])) ∧
    pausePlayback ⟨[], 0, false, false⟩ = (⟨[], 0, false, false⟩, []) ∧
    stopPlayback ⟨[], 0, false, false⟩ = (⟨[], 0, false, false⟩, []) := by
  refine ⟨by decide, by decide, ?_, by decide, by decide⟩
  intro connected loadOk
  cases connected <;> cases loadOk <;> exact ⟨by decide, by decide⟩

/-- C2: the spec says a PlayOrResume received while Stopped with the sink
disconnected attempts no Load.  The remote PLAY handler performs no
`is_connected()` check at all (its embedding takes no connection input):
from Stopped over the catalog `["a"]` it always issues `Cmd.load "a"`,
whatever the load outcome, contradicting spec Scenario D. -/
theorem disconnected_remotePlay_attempts_load :
    ∀ loadOk : Bool, ∃ s1,
      avrcpPlay loadOk ⟨["a"], 0, false, false⟩ = some (s1, [Cmd.load "a"]) := by
  intro loadOk
  cases loadOk with
  | false => exact ⟨⟨["a"], 0, false, false⟩, by decide⟩
  | true => exact ⟨⟨["a"], 0, true, false⟩, by decide⟩

/-- C3 counterexample: Playing over catalog `["a", "b"]` at cursor 0 with
the sink disconnected, `copy()` reporting exhaustion; the claim says the
cursor advances and the next track loads (connection not re-checked), but
the loop calls `playNextTrack`, whose `is_connected()` guard fails: the
state comes back unchanged and no backend command is issued. -/
theorem trackEnded_disconnected_cex :
    loopTick false true false true ⟨["a", "b"], 0, true, false⟩ =
      some (⟨["a", "b"], 0, true, false⟩, []) := by decide

/-- C3 amended: on track exhaustion while Playing and unpaused, the loop
behaves exactly as a NextEvent including its guards — the catalog
non-emptiness and sink-connection checks of `playNextTrack` are
re-applied, not relaxed. -/
theorem trackEnded_equals_nextEvent (connected loadOk healthy : Bool) (s : PlayerState)
    (hplay : s.isPlaying = true) (hpause : s.paused = false) :
    loopTick connected loadOk false healthy s = playNextTrack connected loadOk s := by
  simp [loopTick, hplay, hpause]

/-- C3 witness: the amended equality at a concrete Playing state. -/
theorem trackEnded_equals_nextEvent_witness :
    loopTick true true false true ⟨["a"], 0, true, false⟩ =
      playNextTrack true true ⟨["a"], 0, true, false⟩ :=
  trackEnded_equals_nextEvent true true true ⟨["a"], 0, true, false⟩ rfl rfl

/-- C4 counterexample: with state Playing (not paused), the remote
PlayOrResume issues the backend command `player.pause(false)`
(`Cmd.setPaused false`); the claim says no backend command of any kind is
issued. -/
theorem playWhilePlaying_cex :
    avrcpPlay true ⟨["a"], 0, true, false⟩ =
      some (⟨["a"], 0, true, false⟩, [Cmd.setPaused false]) := by decide

/-- C4 amended: a PlayOrResume while Playing and not paused leaves the
state unchanged (still Playing) and issues exactly one backend command,
the resume `SetPaused false`; no Load and no Stop are issued. -/
theorem playWhilePlaying_resume_only (loadOk : Bool) (s : PlayerState)
    (hplay : s.isPlaying = true) (hpause : s.paused = false) :
    avrcpPlay loadOk s = some (s, [Cmd.setPaused false]) := by
  obtain ⟨pl, c, ip, pz⟩ := s
  simp only at hplay hpause
  subst hplay
  subst hpause
  simp [avrcpPlay]

/-- C4 witness: the amended statement at a concrete Playing state. -/
theorem playWhilePlaying_resume_only_witness :
    avrcpPlay false ⟨["b"], 0, true, false⟩ =
      some (⟨["b"], 0, true, false⟩, [Cmd.setPaused false]) :=
  playWhilePlaying_resume_only false ⟨["b"], 0, true, false⟩ rfl rfl

/-- C5: with a non-empty catalog of length `N`, playback active and the
sink connected (loads succeeding), each NextEvent advances the cursor by
one modulo `N`, and `N` consecutive NextEvents return the cursor to its
starting value. -/
theorem next_wrap_law (s : PlayerState) (N : Nat) (hN : s.playlist.length = N)
    (hpos : 0 < N) (hplay : s.isPlaying = true)
    (h0 : 0 ≤ s.currentTrackIndex) (hlt : s.currentTrackIndex < (N : Int)) :
    Option.map (fun p => p.1.currentTrackIndex) (playNextTrack true true s) =
      some ((s.currentTrackIndex + 1) % (N : Int)) ∧
    Option.map PlayerState.currentTrackIndex (iterStep (playNextTrack true true) N s) =
      some s.currentTrackIndex := by
  have hne : s.playlist ≠ [] := List.ne_nil_of_length_pos (by rw [hN]; exact hpos)
  have hlt' : s.currentTrackIndex < (s.playlist.length : Int) := by
    rw [hN]
    exact hlt
  constructor
  · obtain ⟨t, ht, hstep⟩ := playNextTrack_active true s hne hplay h0 hlt'
    rw [hstep]
    simp [hN]
  · obtain ⟨p, hiter⟩ := iterStep_next_mod N s hne hplay h0 hlt'
    rw [hiter]
    have harith : (s.currentTrackIndex + (N : Int)) % ((s.playlist.length : Nat) : Int)
        = s.currentTrackIndex := by
      rw [hN]
      have h1 := Int.add_mul_emod_self_left s.currentTrackIndex (N : Int) 1
      have h2 : s.currentTrackIndex + (N : Int) * 1 = s.currentTrackIndex + (N : Int) := by
        ring
      rw [h2] at h1
      rw [h1, Int.emod_eq_of_lt h0 hlt]
    simp [harith]

/-- C5 witness: on the three-track catalog at cursor 1, one NextEvent
yields cursor 2 and three NextEvents return to cursor 1. -/
theorem next_wrap_law_witness :
    Option.map (fun p => p.1.currentTrackIndex)
        (playNextTrack true true ⟨["a", "b", "c"], 1, true, false⟩) =
      some ((1 + 1) % (3 : Int)) ∧
    Option.map PlayerState.currentTrackIndex
        (iterStep (playNextTrack true true) 3 ⟨["a", "b", "c"], 1, true, false⟩) =
      some 1 :=
  next_wrap_law ⟨["a", "b", "c"], 1, true, false⟩ 3 rfl (by decide) rfl (by decide) (by decide)

/-- C6: over a non-empty catalog with the cursor in range, every
navigation event and every loop tick is defined, keeps the catalog
unchanged and the cursor within `[0, len)` (circular wrap), and
PlayOrResume, PauseToggle and Stop never move the cursor — only the
Next, Prev and TrackEnded transitions do. -/
theorem cursor_in_range_invariant (connected loadOk copyResult healthy : Bool)
    (e : NavEvent) (s : PlayerState) (hne : s.playlist ≠ [])
    (h0 : 0 ≤ s.currentTrackIndex)
    (hlt : s.currentTrackIndex < (s.playlist.length : Int)) :
    (∃ s1 cmds, applyEvent connected loadOk e s = some (s1, cmds) ∧
      s1.playlist = s.playlist ∧ 0 ≤ s1.currentTrackIndex ∧
      s1.currentTrackIndex < (s.playlist.length : Int) ∧
      ((e = NavEvent.playOrResume ∨ e = NavEvent.pauseToggle ∨ e = NavEvent.stop) →
        s1.currentTrackIndex = s.currentTrackIndex)) ∧
    ∃ s2 cmds2, loopTick connected loadOk copyResult healthy s = some (s2, cmds2) ∧
      s2.playlist = s.playlist ∧ 0 ≤ s2.currentTrackIndex ∧
      s2.currentTrackIndex < (s.playlist.length : Int) := by
  constructor
  · cases e with
    | playOrResume =>
      cases hp : s.isPlaying with
      | false =>
        obtain ⟨t, ht, hstep⟩ := avrcpPlay_stopped loadOk s hp h0 hlt
        exact ⟨_, _, hstep, rfl, h0, hlt, fun _ => rfl⟩
      | true =>
        refine ⟨{ s with paused := false }, [Cmd.setPaused false], ?_, rfl, h0, hlt,
          fun _ => rfl⟩
        simp [applyEvent, avrcpPlay, hp]
    | pauseToggle =>
      cases hp : s.isPlaying with
      | false =>
        refine ⟨s, [], ?_, rfl, h0, hlt, fun _ => rfl⟩
        simp [applyEvent, pausePlayback, hp]
      | true =>
        refine ⟨{ s with paused := !s.paused }, [Cmd.setPaused (!s.paused)], ?_, rfl, h0,
          hlt, fun _ => rfl⟩
        simp [applyEvent, pausePlayback, hp]
    | next =>
      obtain ⟨s1, cmds, hstep, hpl, ha, hb⟩ := playNextTrack_range connected loadOk s hne h0 hlt
      refine ⟨s1, cmds, hstep, hpl, ha, hb, ?_⟩
      intro h
      rcases h with h | h | h <;> cases h
    | prev =>
      obtain ⟨s1, cmds, hstep, hpl, ha, hb⟩ := playPrevTrack_range connected loadOk s hne h0 hlt
      refine ⟨s1, cmds, hstep, hpl, ha, hb, ?_⟩
      intro h
      rcases h with h | h | h <;> cases h
    | stop =>
      cases hp : s.isPlaying with
      | false =>
        refine ⟨s, [], ?_, rfl, h0, hlt, fun _ => rfl⟩
        simp [applyEvent, stopPlayback, hp]
      | true =>
        refine ⟨{ s with isPlaying := false }, [Cmd.stop], ?_, rfl, h0, hlt, fun _ => rfl⟩
        simp [applyEvent, stopPlayback, hp]
  · cases hp : (s.isPlaying && !s.paused) with
    | false =>
      refine ⟨s, [], ?_, rfl, h0, hlt⟩
      simp [loopTick, hp]
    | true =>
      cases hcr : copyResult with
      | true =>
        refine ⟨s, [], ?_, rfl, h0, hlt⟩
        simp [loopTick, hp]
      | false =>
        obtain ⟨s2, cmds2, hstep, hpl, ha, hb⟩ :=
          playNextTrack_range connected loadOk s hne h0 hlt
        refine ⟨s2, cmds2, ?_, hpl, ha, hb⟩
        simp [loopTick, hp, hstep]

/-- C6 witness: the invariant instantiated for a NextEvent from a Playing
state over a two-track catalog. -/
theorem cursor_in_range_invariant_witness :
    (∃ s1 cmds, applyEvent true true NavEvent.next ⟨["a", "b"], 0, true, false⟩ =
        some (s1, cmds) ∧
      s1.playlist = (⟨["a", "b"], 0, true, false⟩ : PlayerState).playlist ∧
      0 ≤ s1.currentTrackIndex ∧
      s1.currentTrackIndex <
        (((⟨["a", "b"], 0, true, false⟩ : PlayerState).playlist.length : Nat) : Int) ∧
      ((NavEvent.next = NavEvent.playOrResume ∨ NavEvent.next = NavEvent.pauseToggle ∨
          NavEvent.next = NavEvent.stop) →
        s1.currentTrackIndex = (⟨["a", "b"], 0, true, false⟩ : PlayerState).currentTrackIndex)) ∧
    ∃ s2 cmds2, loopTick true true false true ⟨["a", "b"], 0, true, false⟩ =
        some (s2, cmds2) ∧
      s2.playlist = (⟨["a", "b"], 0, true, false⟩ : PlayerState).playlist ∧
      0 ≤ s2.currentTrackIndex ∧
      s2.currentTrackIndex <
        (((⟨["a", "b"], 0, true, false⟩ : PlayerState).playlist.length : Nat) : Int) :=
  cursor_in_range_invariant true true false true NavEvent.next ⟨["a", "b"], 0, true, false⟩
    (by decide) (by decide) (by decide)

/-- C7: after a load attempt that the backend reports not-ok, `playFile`
leaves the machine Stopped, and the following loop iteration issues no
backend command at all — in particular no reload of the same track — and
leaves the state unchanged: only a fresh user event can cause another
load. -/
theorem load_failure_no_auto_retry (t : String) (s : PlayerState)
    (connected loadOk copyResult healthy : Bool) :
    (playFile false t s).1.isPlaying = false ∧
    loopTick connected loadOk copyResult healthy (playFile false t s).1 =
      some ((playFile false t s).1, []) := by
  constructor
  · simp [playFile]
  · simp [loopTick, playFile]

/-- C8 counterexample: `a.Mp3` is a case variant of the configured
extension (its lowercased name ends with `.mp3`), yet `buildPlaylist`
excludes it: the source compares only against the two exact spellings
`.mp3` and `.MP3`, not case-insensitively. -/
theorem buildPlaylist_mixedCase_cex :
    specCaseInsensitiveMp3 "a.Mp3" = true ∧
    buildPlaylist [⟨"a.Mp3", false⟩] = [] := ⟨by decide, by decide⟩

/-- C8 amended: `buildPlaylist` returns exactly the non-directory entries,
in enumeration order (a sublist of the flat enumeration — no recursion),
whose name ends with exactly `.mp3` or exactly `.MP3`; other case
variants of the extension are excluded. -/
theorem buildPlaylist_characterization (entries : List DirEntry) :
    List.Sublist (buildPlaylist entries) (entries.map DirEntry.name) ∧
    ∀ x, x ∈ buildPlaylist entries ↔
      ∃ e, e ∈ entries ∧ e.name = x ∧ e.isDirectory = false ∧
        (endsWithStr x ".mp3" || endsWithStr x ".MP3") = true := by
  constructor
  · exact List.Sublist.map _ (List.filter_sublist _)
  · intro x
    simp only [buildPlaylist, List.mem_map, List.mem_filter, Bool.and_eq_true,
      Bool.not_eq_true']
    constructor
    · rintro ⟨e, ⟨he, hdir, hext⟩, hname⟩
      subst hname
      exact ⟨e, he, rfl, hdir, hext⟩
    · rintro ⟨e, he, hname, hdir, hext⟩
      subst hname
      exact ⟨e, ⟨he, hdir, hext⟩, rfl⟩

/-- C9 counterexample: Playing at cursor 0 over `["a", "b"]`, backend
unhealthy (`healthy = false`) but `copy()` still returning true: the loop
leaves the state unchanged and issues no command — it does not advance to
the next track, because it never consults `isOk()`. -/
theorem unhealthy_no_advance_cex :
    loopTick true true true false ⟨["a", "b"], 0, true, false⟩ =
      some (⟨["a", "b"], 0, true, false⟩, []) := by decide

/-- C9 amended: the loop's behaviour is independent of the backend health
value; the only exhaustion signal it reacts to is `copy()` returning
false, and while `copy()` returns true it always leaves the state
unchanged and issues no backend command, healthy or not. -/
theorem loop_ignores_health (connected loadOk copyResult h1 h2 : Bool) (s : PlayerState) :
    loopTick connected loadOk copyResult h1 s = loopTick connected loadOk copyResult h2 s ∧
    loopTick connected loadOk true h1 s = some (s, []) := by
  refine ⟨rfl, ?_⟩
  simp [loopTick]

/-- C10: a Next or Prev while playback is active whose load fails leaves
the cursor at its newly advanced value — it is not rolled back — with the
machine Stopped, and a later PlayOrResume attempts to load exactly the
track that just failed. -/
theorem failed_load_keeps_advanced_cursor (loadOk : Bool) (s : PlayerState)
    (hne : s.playlist ≠ []) (hplay : s.isPlaying = true)
    (h0 : 0 ≤ s.currentTrackIndex)
    (hlt : s.currentTrackIndex < (s.playlist.length : Int)) :
    (∃ t, playNextTrack true false s =
        some (⟨s.playlist, (s.currentTrackIndex + 1) % (s.playlist.length : Int), false, false⟩,
          [Cmd.stop, Cmd.load t]) ∧
      avrcpPlay loadOk
          ⟨s.playlist, (s.currentTrackIndex + 1) % (s.playlist.length : Int), false, false⟩ =
        some (⟨s.playlist, (s.currentTrackIndex + 1) % (s.playlist.length : Int), loadOk, false⟩,
          [Cmd.load t])) ∧
    ∃ t, playPrevTrack true false s =
        some (⟨s.playlist, (s.currentTrackIndex - 1) % (s.playlist.length : Int), false, false⟩,
          [Cmd.stop, Cmd.load t]) ∧
      avrcpPlay loadOk
          ⟨s.playlist, (s.currentTrackIndex - 1) % (s.playlist.length : Int), false, false⟩ =
        some (⟨s.playlist, (s.currentTrackIndex - 1) % (s.playlist.length : Int), loadOk, false⟩,
          [Cmd.load t]) := by
  have hlen : (0 : Int) < (s.playlist.length : Int) := by
    have := List.length_pos.mpr hne
    omega
  constructor
  · obtain ⟨t, ht, hstep⟩ := playNextTrack_active false s hne hplay h0 hlt
    obtain ⟨t2, ht2, hplaystep⟩ := avrcpPlay_stopped loadOk
      ⟨s.playlist, (s.currentTrackIndex + 1) % (s.playlist.length : Int), false, false⟩
      rfl (Int.emod_nonneg _ (by omega)) (Int.emod_lt_of_pos _ hlen)
    have hteq : t2 = t := Option.some.inj (ht2.symm.trans ht)
    subst hteq
    exact ⟨t2, hstep, hplaystep⟩
  · obtain ⟨t, ht, hstep⟩ := playPrevTrack_active false s hne hplay h0 hlt
    obtain ⟨t2, ht2, hplaystep⟩ := avrcpPlay_stopped loadOk
      ⟨s.playlist, (s.currentTrackIndex - 1) % (s.playlist.length : Int), false, false⟩
      rfl (Int.emod_nonneg _ (by omega)) (Int.emod_lt_of_pos _ hlen)
    have hteq : t2 = t := Option.some.inj (ht2.symm.trans ht)
    subst hteq
    exact ⟨t2, hstep, hplaystep⟩

/-- C10 witness: from Playing at cursor 0 over `["a", "b"]`, a failing
NextEvent leaves the cursor at 1 (track `b`) in Stopped, and a later
PlayOrResume re-attempts to load `b`; symmetrically for PrevEvent. -/
theorem failed_load_keeps_advanced_cursor_witness :
    (∃ t, playNextTrack true false ⟨["a", "b"], 0, true, false⟩ =
        some (⟨["a", "b"], (0 + 1) % (((["a", "b"] : List String).length : Nat) : Int),
            false, false⟩,
          [Cmd.stop, Cmd.load t]) ∧
      avrcpPlay true
          ⟨["a", "b"], (0 + 1) % (((["a", "b"] : List String).length : Nat) : Int),
            false, false⟩ =
        some (⟨["a", "b"], (0 + 1) % (((["a", "b"] : List String).length : Nat) : Int),
            true, false⟩,
          [Cmd.load t])) ∧
    ∃ t, playPrevTrack true false ⟨["a", "b"], 0, true, false⟩ =
        some (⟨["a", "b"], (0 - 1) % (((["a", "b"] : List String).length : Nat) : Int),
            false, false⟩,
          [Cmd.stop, Cmd.load t]) ∧
      avrcpPlay true
          ⟨["a", "b"], (0 - 1) % (((["a", "b"] : List String).length : Nat) : Int),
            false, false⟩ =
        some (⟨["a", "b"], (0 - 1) % (((["a", "b"] : List String).length : Nat) : Int),
            true, false⟩,
          [Cmd.load t]) :=
  failed_load_keeps_advanced_cursor true ⟨["a", "b"], 0, true, false⟩
    (by decide) rfl (by decide) (by decide)
